import Mathlib

/-!
Shallow embedding of the slot-booking core of the Doctor Appointment System.

The embedded code:
* `book` — the `POST /api/book` handler of `server.js` (transaction with
  `SELECT ... FOR UPDATE`, availability check, decrement, booking insert).
* `bookDeploy` — the `POST /api/book` handler of the deployment variant
  (same logic plus a `seats < 1` validation and an `available` field in the
  409 response body).
* `reclaimExpired` — the `POST /api/admin/cleanup` handler (one transaction:
  select expired PENDING bookings, per booking increment the slot and set
  the booking FAILED, commit; on any error roll the whole run back).

Machine integers are modelled as `Int` (MySQL `INT` columns never get near
overflow in these claims); wall-clock time is an `Int` of milliseconds.
`Nat` ids model the `AUTO_INCREMENT` primary keys.
-/

namespace DoctorAppointment

/-- Booking status enum of the `bookings` table
(`ENUM('PENDING','CONFIRMED','FAILED','CANCELLED')`). -/
inductive BStatus where
  | PENDING : BStatus
  | CONFIRMED : BStatus
  | FAILED : BStatus
  | CANCELLED : BStatus
  deriving DecidableEq, Repr

/-- A row of the `bookings` table (columns relevant to the booking core). -/
structure Booking where
  id : Nat
  slot_id : Nat
  patient_name : String
  patient_email : Option String
  seats_booked : Int
  status : BStatus
  expires_at : Int
  deriving DecidableEq, Repr

/-- A row of the `slots` table (columns relevant to the booking core).
`max_patients` is the slot's total capacity. -/
structure Slot where
  id : Nat
  max_patients : Int
  available_seats : Int
  deriving DecidableEq, Repr

/-- The database state seen by the handlers: the `slots` and `bookings`
tables plus the `AUTO_INCREMENT` counter of `bookings.id`. -/
structure DBState where
  slots : List Slot
  bookings : List Booking
  nextBookingId : Nat
  deriving DecidableEq, Repr

/-- Body of a booking request after JSON parsing; `slot_id = 0` models a
falsy `slot_id` (absent/`0`), empty string a falsy `patient_name`, and
`seats` is the request value after the `seats = 1` default. -/
structure BookRequest where
  slot_id : Nat
  patient_name : String
  patient_email : Option String
  seats : Int
  deriving DecidableEq, Repr

/-- Outcome of a booking request, as sent in the HTTP response.
`insufficient a?` is the 409 response; `a?` is the `available` field of the
body when the handler includes one (`none` when the body carries no
availability value). -/
inductive BookResult where
  | invalidRequest : BookResult
  | notFound : BookResult
  | insufficient : Option Int → BookResult
  | success : Nat → BookResult
  deriving DecidableEq, Repr

/-- Ledger (database) accesses a handler performs, in order:
`SELECT ... FOR UPDATE` on a slot row, `UPDATE slots`, `INSERT INTO
bookings`. -/
inductive LedgerEvent where
  | lockRead : Nat → LedgerEvent
  | updateSlot : Nat → LedgerEvent
  | insertBooking : LedgerEvent
  deriving DecidableEq, Repr

/-- `SELECT ... FROM slots WHERE id = ?` (primary-key lookup). -/
def findSlot (sid : Nat) : List Slot → Option Slot
  | [] => none
  | s :: ss => if s.id = sid then some s else findSlot sid ss

/-- `UPDATE slots SET available_seats = available_seats - ? WHERE id = ?`. -/
def decSlots (sid : Nat) (n : Int) (ss : List Slot) : List Slot :=
  ss.map (fun s =>
    if s.id = sid then { s with available_seats := s.available_seats - n } else s)

/-- `UPDATE slots SET available_seats = available_seats + ? WHERE id = ?`. -/
def incSlots (sid : Nat) (n : Int) (ss : List Slot) : List Slot :=
  ss.map (fun s =>
    if s.id = sid then { s with available_seats := s.available_seats + n } else s)

/-- `UPDATE bookings SET status = 'FAILED' WHERE id = ?`. -/
def setFailed (bid : Nat) (bs : List Booking) : List Booking :=
  bs.map (fun b => if b.id = bid then { b with status := .FAILED } else b)

/-- The booking row the handlers insert:
`INSERT INTO bookings (slot_id, patient_name, patient_email, seats_booked,
expires_at, status) VALUES (?, ?, ?, ?, ?, 'CONFIRMED')` with
`expires_at = new Date(Date.now() + 2 * 60 * 1000)` and the
`AUTO_INCREMENT` id. -/
def mkBooking (st : DBState) (now : Int) (req : BookRequest) : Booking :=
  { id := st.nextBookingId, slot_id := req.slot_id,
    patient_name := req.patient_name, patient_email := req.patient_email,
    seats_booked := req.seats, status := .CONFIRMED,
    expires_at := now + 2 * 60 * 1000 }

/-- The state committed by the success branch of the booking transaction:
decrement the slot, insert the booking, bump the id counter. -/
def bookCommit (st : DBState) (now : Int) (req : BookRequest) : DBState :=
  { st with
      slots := decSlots req.slot_id req.seats st.slots,
      bookings := st.bookings ++ [mkBooking st now req],
      nextBookingId := st.nextBookingId + 1 }

/-- The `POST /api/book` handler of `server.js`: validate that `slot_id`
and `patient_name` are truthy, lock and read the slot row, 404 if absent,
book and commit when `availableSeats >= seats`, otherwise roll back and
answer 409 (body without an availability value). Returns the response, the
committed state, and the ledger accesses performed. -/
def book (st : DBState) (now : Int) (req : BookRequest) :
    BookResult × DBState × List LedgerEvent :=
  if req.slot_id = 0 ∨ req.patient_name = "" then
    (.invalidRequest, st, [])
  else
    match findSlot req.slot_id st.slots with
    | none => (.notFound, st, [.lockRead req.slot_id])
    | some sl =>
        if sl.available_seats ≥ req.seats then
          (.success st.nextBookingId, bookCommit st now req,
           [.lockRead req.slot_id, .updateSlot req.slot_id, .insertBooking])
        else
          (.insufficient none, st, [.lockRead req.slot_id])

/-- The `POST /api/book` handler of the deployment variant: identical to
`book` except that it rejects `seats < 1` with a 400 before beginning the
transaction, and its 409 body carries `available: availableSeats`. -/
def bookDeploy (st : DBState) (now : Int) (req : BookRequest) :
    BookResult × DBState × List LedgerEvent :=
  if req.slot_id = 0 ∨ req.patient_name = "" then
    (.invalidRequest, st, [])
  else if req.seats < 1 then
    (.invalidRequest, st, [])
  else
    match findSlot req.slot_id st.slots with
    | none => (.notFound, st, [.lockRead req.slot_id])
    | some sl =>
        if sl.available_seats ≥ req.seats then
          (.success st.nextBookingId, bookCommit st now req,
           [.lockRead req.slot_id, .updateSlot req.slot_id, .insertBooking])
        else
          (.insufficient (some sl.available_seats), st, [.lockRead req.slot_id])

/-- `status = 'PENDING' AND expires_at < NOW()` on a booking row. -/
def isExpiredPending (now : Int) (b : Booking) : Prop :=
  b.status = .PENDING ∧ b.expires_at < now

instance (now : Int) (b : Booking) : Decidable (isExpiredPending now b) := by
  unfold isExpiredPending; infer_instance

/-- The `SELECT id, slot_id, seats_booked FROM bookings WHERE status =
'PENDING' AND expires_at < NOW()` snapshot of the cleanup handler. -/
def expiredPending (st : DBState) (now : Int) : List Booking :=
  st.bookings.filter (fun b => decide (isExpiredPending now b))

/-- One iteration of the cleanup loop: release the seats back to the
booking's slot, then mark the booking FAILED. -/
def reclaimStep (st : DBState) (b : Booking) : DBState :=
  { st with
      slots := incSlots b.slot_id b.seats_booked st.slots,
      bookings := setFailed b.id st.bookings }

/-- The `POST /api/admin/cleanup` handler on its failure-free path: select
the expired PENDING bookings, run the loop, commit, and report the number
of bookings cleaned up. -/
def reclaimExpired (st : DBState) (now : Int) : DBState × Nat :=
  let expired := expiredPending st now
  (expired.foldl reclaimStep st, expired.length)

/-- The cleanup loop when a query can throw: `fails i = true` means the
iteration for booking id `i` raises a storage error. `none` signals the
caught exception. -/
def reclaimLoop (fails : Nat → Bool) : DBState → List Booking → Option DBState
  | st, [] => some st
  | st, b :: rest =>
      if fails b.id then none else reclaimLoop fails (reclaimStep st b) rest

/-- The whole `POST /api/admin/cleanup` handler with fallible iterations:
the loop runs inside one transaction; on an error the catch block rolls the
entire transaction back, so the committed state is the pre-call state and no
count is reported (`none`); otherwise the loop's final state commits. -/
def reclaimExpiredF (st : DBState) (now : Int) (fails : Nat → Bool) :
    DBState × Option Nat :=
  let expired := expiredPending st now
  match reclaimLoop fails st expired with
  | some st2 => (st2, some expired.length)
  | none => (st, none)

/-- One call against the booking core: a booking request at a given wall
clock, or a cleanup run at a given wall clock. -/
inductive Op where
  | doBook : BookRequest → Int → Op
  | doReclaim : Int → Op
  deriving Repr

/-- Apply one call to the database state (the committed state after the
handler returns). -/
def applyOp (st : DBState) : Op → DBState
  | .doBook req now => (book st now req).2.1
  | .doReclaim now => (reclaimExpired st now).1

/-- Run a sequence of calls. -/
def run (st : DBState) (ops : List Op) : DBState :=
  ops.foldl applyOp st

/-- Sum of `seats_booked` over the PENDING/CONFIRMED bookings that
reference slot `sid`. -/
def slotOutstanding (sid : Nat) : List Booking → Int
  | [] => 0
  | b :: bs =>
      (if b.slot_id = sid ∧ (b.status = .PENDING ∨ b.status = .CONFIRMED) then
        b.seats_booked else 0) + slotOutstanding sid bs

/-- Sum of `seats_booked` over the bookings of a list that reference slot
`sid` (used for the seats a cleanup run gives back to the slot). -/
def reclaimSeats (sid : Nat) : List Booking → Int
  | [] => 0
  | b :: bs => (if b.slot_id = sid then b.seats_booked else 0) + reclaimSeats sid bs

/-- Well-formedness the schema enforces: `bookings.id` is an
`AUTO_INCREMENT` primary key, so ids are distinct and below the counter. -/
def WF (st : DBState) : Prop :=
  (st.bookings.map (fun b => b.id)).Nodup ∧
    ∀ b ∈ st.bookings, b.id < st.nextBookingId

instance (st : DBState) : Decidable (WF st) := by
  unfold WF; infer_instance

/-- Net effect of the cleanup loop on one booking row: FAILED when its id
is among the reclaimed ids, untouched otherwise. -/
def markFailed (ids : List Nat) (b : Booking) : Booking :=
  if b.id ∈ ids then { b with status := .FAILED } else b

theorem markFailed_id (ids : List Nat) (b : Booking) :
    (markFailed ids b).id = b.id := by
  unfold markFailed; split <;> rfl

theorem markFailed_nil (b : Booking) : markFailed [] b = b := by
  simp [markFailed]

theorem markFailed_cons (i : Nat) (ids : List Nat) (x : Booking) :
    markFailed ids (if x.id = i then { x with status := .FAILED } else x) =
      markFailed (i :: ids) x := by
  unfold markFailed
  by_cases hx : x.id = i
  · simp [hx]
  · simp [hx]

theorem foldl_reclaimStep_nextId (l : List Booking) (st : DBState) :
    (l.foldl reclaimStep st).nextBookingId = st.nextBookingId := by
  induction l generalizing st with
  | nil => rfl
  | cons b l ih => simp [List.foldl_cons, ih, reclaimStep]

theorem foldl_reclaimStep_bookings (l : List Booking) (st : DBState) :
    (l.foldl reclaimStep st).bookings =
      st.bookings.map (markFailed (l.map (fun b => b.id))) := by
  induction l generalizing st with
  | nil =>
      simp only [List.foldl_nil, List.map_nil]
      rw [List.map_congr_left (fun b _ => markFailed_nil b), List.map_id']
  | cons b l ih =>
      simp only [List.foldl_cons, ih, reclaimStep, setFailed, List.map_map,
        List.map_cons]
      exact List.map_congr_left (fun x _ => markFailed_cons b.id _ x)

theorem foldl_reclaimStep_slots (l : List Booking) (st : DBState) :
    (l.foldl reclaimStep st).slots =
      st.slots.map (fun s =>
        { s with available_seats := s.available_seats + reclaimSeats s.id l }) := by
  induction l generalizing st with
  | nil =>
      simp only [List.foldl_nil, reclaimSeats]
      have h : ∀ s ∈ st.slots,
          ({ s with available_seats := s.available_seats + 0 } : Slot) = s := by
        intro s _; simp
      rw [List.map_congr_left h, List.map_id']
  | cons b l ih =>
      simp only [List.foldl_cons, ih, reclaimStep, incSlots, List.map_map]
      refine List.map_congr_left (fun s _ => ?_)
      simp only [Function.comp, reclaimSeats]
      by_cases hs : s.id = b.slot_id
      · simp [hs, add_assoc]
      · have : ¬ b.slot_id = s.id := fun h => hs h.symm
        simp [hs, this]

theorem findSlot_id (sid : Nat) (ss : List Slot) (sl : Slot)
    (h : findSlot sid ss = some sl) : sl.id = sid := by
  induction ss with
  | nil => simp [findSlot] at h
  | cons s ss ih =>
      by_cases hs : s.id = sid
      · simp [findSlot, hs] at h; rw [← h]; exact hs
      · simp [findSlot, hs] at h; exact ih h

theorem findSlot_map (f : Slot → Slot) (hf : ∀ s, (f s).id = s.id)
    (sid : Nat) (ss : List Slot) :
    findSlot sid (ss.map f) = (findSlot sid ss).map f := by
  induction ss with
  | nil => rfl
  | cons s ss ih =>
      by_cases hs : s.id = sid
      · simp [findSlot, hf, hs]
      · simp [findSlot, hf, hs, ih]

theorem mem_filter_ids (p : Booking → Bool) (bs : List Booking)
    (hnd : (bs.map (fun b => b.id)).Nodup) (b : Booking) (hb : b ∈ bs) :
    b.id ∈ (bs.filter p).map (fun b => b.id) ↔ p b = true := by
  constructor
  · intro h
    obtain ⟨b', hb', heq⟩ := List.mem_map.mp h
    have hb'2 := List.mem_filter.mp hb'
    have hbb : b' = b := List.inj_on_of_nodup_map hnd hb'2.1 hb heq
    rw [← hbb]; exact hb'2.2
  · intro h
    exact List.mem_map.mpr ⟨b, List.mem_filter.mpr ⟨hb, h⟩, rfl⟩

/-- Under the primary-key constraint, the cleanup run rewrites the bookings
table pointwise: each expired PENDING row becomes FAILED, others are kept. -/
theorem map_markFailed_expired (now : Int) (bs : List Booking)
    (hnd : (bs.map (fun b => b.id)).Nodup) :
    bs.map (markFailed
        ((bs.filter (fun b => decide (isExpiredPending now b))).map (fun b => b.id))) =
      bs.map (fun b =>
        if isExpiredPending now b then { b with status := .FAILED } else b) := by
  refine List.map_congr_left (fun b hb => ?_)
  have hiff := mem_filter_ids (fun b => decide (isExpiredPending now b)) bs hnd b hb
  by_cases h : isExpiredPending now b
  · have hmem : b.id ∈
        (bs.filter (fun b => decide (isExpiredPending now b))).map (fun b => b.id) :=
      hiff.mpr (by simpa using h)
    simp [markFailed, hmem, h]
  · have hmem : b.id ∉
        (bs.filter (fun b => decide (isExpiredPending now b))).map (fun b => b.id) :=
      fun hm => h (by simpa using hiff.mp hm)
    simp [markFailed, hmem, h]

theorem slotOutstanding_append (sid : Nat) (bs1 bs2 : List Booking) :
    slotOutstanding sid (bs1 ++ bs2) =
      slotOutstanding sid bs1 + slotOutstanding sid bs2 := by
  induction bs1 with
  | nil => simp [slotOutstanding]
  | cons b bs ih => simp [slotOutstanding, ih, add_assoc]

theorem slotOutstanding_eq_zero (sid : Nat) (bs : List Booking)
    (h : ∀ b ∈ bs, b.slot_id ≠ sid) :
    slotOutstanding sid bs = 0 := by
  induction bs with
  | nil => rfl
  | cons b bs ih =>
      have hb : b.slot_id ≠ sid := h b (List.mem_cons_self b bs)
      simp only [slotOutstanding, ih (fun x hx => h x (List.mem_cons_of_mem b hx))]
      simp [hb]

/-- Flipping the expired PENDING rows to FAILED removes exactly the seats
the cleanup run hands back from the outstanding sum of each slot. -/
theorem slotOutstanding_flip (sid : Nat) (now : Int) (bs : List Booking) :
    slotOutstanding sid (bs.map (fun b =>
        if isExpiredPending now b then { b with status := .FAILED } else b)) =
      slotOutstanding sid bs -
        reclaimSeats sid (bs.filter (fun b => decide (isExpiredPending now b))) := by
  induction bs with
  | nil => simp [slotOutstanding, reclaimSeats]
  | cons b bs ih =>
      by_cases h : isExpiredPending now b
      · have hd : decide (isExpiredPending now b) = true := by simpa using h
        have hpend : b.status = .PENDING := h.1
        simp only [List.map_cons, List.filter_cons, hd, if_true, if_pos h,
          slotOutstanding, reclaimSeats, ih]
        by_cases hsid : b.slot_id = sid
        · simp [hsid, hpend]
        · simp [hsid]
      · have hd : decide (isExpiredPending now b) = false := by simpa using h
        simp only [List.map_cons, List.filter_cons, hd, Bool.false_eq_true,
          if_false, if_neg h, slotOutstanding, ih]
        omega

/-- The possible committed states of one `book` call: every path except the
success branch rolls back (state unchanged); the success branch commits
`bookCommit`. -/
theorem book_state_cases (st : DBState) (now : Int) (req : BookRequest) :
    (book st now req).2.1 = st ∨
      ∃ sl, findSlot req.slot_id st.slots = some sl ∧
        sl.available_seats ≥ req.seats ∧
        (book st now req).2.1 = bookCommit st now req := by
  unfold book
  split
  · left; rfl
  · split
    · left; rfl
    · split
      · right; exact ⟨_, by assumption, by assumption, rfl⟩
      · left; rfl

/-- Induction invariant for the capacity claim: the primary-key
well-formedness of the bookings table, plus the ledger equation for slot
`sid` with total capacity `M`. -/
def CapInv (sid : Nat) (M : Int) (st : DBState) : Prop :=
  WF st ∧ ∃ sl, findSlot sid st.slots = some sl ∧ sl.max_patients = M ∧
    sl.available_seats = M - slotOutstanding sid st.bookings

theorem capInv_bookCommit (sid : Nat) (M : Int) (st : DBState) (now : Int)
    (req : BookRequest) (h : CapInv sid M st) :
    CapInv sid M (bookCommit st now req) := by
  obtain ⟨⟨hnd, hlt⟩, sl, hfind, hmax, hav⟩ := h
  refine ⟨⟨?_, ?_⟩, ?_⟩
  · show ((st.bookings ++ [mkBooking st now req]).map (fun b => b.id)).Nodup
    rw [List.map_append]
    refine List.Nodup.append hnd (List.nodup_singleton _) ?_
    intro a ha hb
    simp only [mkBooking, List.map_cons, List.map_nil, List.mem_singleton] at hb
    obtain ⟨b0, hb0, rfl⟩ := List.mem_map.mp ha
    exact absurd hb (Nat.ne_of_lt (hlt b0 hb0))
  · intro b hb
    show b.id < st.nextBookingId + 1
    rcases List.mem_append.mp hb with hb | hb
    · exact Nat.lt_succ_of_lt (hlt b hb)
    · simp only [List.mem_singleton] at hb
      rw [hb]; exact Nat.lt_succ_self _
  · have hid : ∀ s : Slot,
        ((if s.id = req.slot_id then
            { s with available_seats := s.available_seats - req.seats } else s) : Slot).id
          = s.id := by
      intro s; split <;> rfl
    have hf2 : findSlot sid (bookCommit st now req).slots =
        some (if sl.id = req.slot_id then
          { sl with available_seats := sl.available_seats - req.seats } else sl) := by
      show findSlot sid (decSlots req.slot_id req.seats st.slots) = _
      unfold decSlots
      rw [findSlot_map _ hid sid st.slots, hfind]
      rfl
    refine ⟨_, hf2, ?_, ?_⟩
    · split <;> exact hmax
    · have hsl : sl.id = sid := findSlot_id sid st.slots sl hfind
      show (if sl.id = req.slot_id then
          { sl with available_seats := sl.available_seats - req.seats } else sl).available_seats
        = M - slotOutstanding sid (st.bookings ++ [mkBooking st now req])
      rw [slotOutstanding_append]
      by_cases hreq : req.slot_id = sid
      · rw [if_pos (by rw [hsl, hreq])]
        simp only [slotOutstanding, mkBooking, hreq]
        simp [hav]
        ring
      · rw [if_neg (by rw [hsl]; exact fun hc => hreq hc.symm)]
        simp only [slotOutstanding, mkBooking]
        simp [hreq, hav]

theorem capInv_book (sid : Nat) (M : Int) (st : DBState) (now : Int)
    (req : BookRequest) (h : CapInv sid M st) :
    CapInv sid M (book st now req).2.1 := by
  rcases book_state_cases st now req with heq | ⟨sl', _, _, heq⟩ <;> rw [heq]
  · exact h
  · exact capInv_bookCommit sid M st now req h

theorem capInv_reclaim (sid : Nat) (M : Int) (st : DBState) (now : Int)
    (h : CapInv sid M st) :
    CapInv sid M (reclaimExpired st now).1 := by
  obtain ⟨⟨hnd, hlt⟩, sl, hfind, hmax, hav⟩ := h
  have hids : ((reclaimExpired st now).1.bookings.map (fun b => b.id)) =
      st.bookings.map (fun b => b.id) := by
    show ((((expiredPending st now)).foldl reclaimStep st).bookings.map (fun b => b.id)) = _
    rw [foldl_reclaimStep_bookings, List.map_map]
    exact List.map_congr_left (fun b _ => markFailed_id _ b)
  refine ⟨⟨?_, ?_⟩, ?_⟩
  · rw [hids]; exact hnd
  · intro b hb
    show b.id < ((expiredPending st now).foldl reclaimStep st).nextBookingId
    rw [foldl_reclaimStep_nextId]
    have hb' : b ∈ ((expiredPending st now).foldl reclaimStep st).bookings := hb
    rw [foldl_reclaimStep_bookings] at hb'
    obtain ⟨b0, hb0, rfl⟩ := List.mem_map.mp hb'
    rw [markFailed_id]
    exact hlt b0 hb0
  · have hsl : sl.id = sid := findSlot_id sid st.slots sl hfind
    have hf2 : findSlot sid (reclaimExpired st now).1.slots =
        some { sl with available_seats :=
          sl.available_seats + reclaimSeats sl.id (expiredPending st now) } := by
      show findSlot sid ((expiredPending st now).foldl reclaimStep st).slots = _
      rw [foldl_reclaimStep_slots,
        findSlot_map (fun s => { s with available_seats :=
          s.available_seats + reclaimSeats s.id (expiredPending st now) })
          (fun s => rfl) sid st.slots,
        hfind]
      rfl
    refine ⟨_, hf2, hmax, ?_⟩
    show (sl.available_seats + reclaimSeats sl.id (expiredPending st now)) =
        M - slotOutstanding sid (reclaimExpired st now).1.bookings
    show _ = M - slotOutstanding sid ((expiredPending st now).foldl reclaimStep st).bookings
    rw [foldl_reclaimStep_bookings]
    unfold expiredPending
    rw [map_markFailed_expired now st.bookings hnd, slotOutstanding_flip, hav, hsl]
    ring

theorem capInv_run (sid : Nat) (M : Int) (st : DBState) (ops : List Op)
    (h : CapInv sid M st) : CapInv sid M (run st ops) := by
  induction ops generalizing st with
  | nil => exact h
  | cons op ops ih =>
      show CapInv sid M ((op :: ops).foldl applyOp st)
      rw [List.foldl_cons]
      refine ih _ ?_
      cases op with
      | doBook req now => exact capInv_book sid M st now req h
      | doReclaim now => exact capInv_reclaim sid M st now h

/-- One `book` call on its reject-validation path. -/
theorem book_invalid_eq (st : DBState) (now : Int) (req : BookRequest)
    (hval : req.slot_id = 0 ∨ req.patient_name = "") :
    book st now req = (.invalidRequest, st, []) := by
  unfold book
  rw [if_pos hval]

/-- One `book` call on its slot-absent path. -/
theorem book_notFound_eq (st : DBState) (now : Int) (req : BookRequest)
    (hsid : req.slot_id ≠ 0) (hname : req.patient_name ≠ "")
    (habs : findSlot req.slot_id st.slots = none) :
    book st now req = (.notFound, st, [.lockRead req.slot_id]) := by
  unfold book
  have hval : ¬(req.slot_id = 0 ∨ req.patient_name = "") := by
    push_neg; exact ⟨hsid, hname⟩
  rw [if_neg hval, habs]

/-- One `book` call on its success path. -/
theorem book_success_eq (st : DBState) (now : Int) (req : BookRequest) (sl : Slot)
    (hsid : req.slot_id ≠ 0) (hname : req.patient_name ≠ "")
    (hfind : findSlot req.slot_id st.slots = some sl)
    (hcap : sl.available_seats ≥ req.seats) :
    book st now req = (.success st.nextBookingId, bookCommit st now req,
      [.lockRead req.slot_id, .updateSlot req.slot_id, .insertBooking]) := by
  unfold book
  have hval : ¬(req.slot_id = 0 ∨ req.patient_name = "") := by
    push_neg; exact ⟨hsid, hname⟩
  rw [if_neg hval, hfind]
  show (if sl.available_seats ≥ req.seats then _ else _) = _
  rw [if_pos hcap]

/-- One `book` call on its insufficient-capacity path. -/
theorem book_insufficient_eq (st : DBState) (now : Int) (req : BookRequest)
    (sl : Slot)
    (hsid : req.slot_id ≠ 0) (hname : req.patient_name ≠ "")
    (hfind : findSlot req.slot_id st.slots = some sl)
    (hcap : ¬ sl.available_seats ≥ req.seats) :
    book st now req = (.insufficient none, st, [.lockRead req.slot_id]) := by
  unfold book
  have hval : ¬(req.slot_id = 0 ∨ req.patient_name = "") := by
    push_neg; exact ⟨hsid, hname⟩
  rw [if_neg hval, hfind]
  show (if sl.available_seats ≥ req.seats then _ else _) = _
  rw [if_neg hcap]

/-- After the success branch commits, the booked slot row shows the
decremented seat count. -/
theorem findSlot_bookCommit (st : DBState) (now : Int) (req : BookRequest)
    (sl : Slot) (hfind : findSlot req.slot_id st.slots = some sl) :
    findSlot req.slot_id (bookCommit st now req).slots =
      some { sl with available_seats := sl.available_seats - req.seats } := by
  have hsl : sl.id = req.slot_id := findSlot_id _ _ _ hfind
  have hid : ∀ s : Slot,
      ((if s.id = req.slot_id then
          { s with available_seats := s.available_seats - req.seats } else s) : Slot).id
        = s.id := by
    intro s; split <;> rfl
  show findSlot req.slot_id (decSlots req.slot_id req.seats st.slots) = _
  unfold decSlots
  rw [findSlot_map (fun s => if s.id = req.slot_id then
      { s with available_seats := s.available_seats - req.seats } else s)
      hid req.slot_id st.slots, hfind]
  simp [hsl]

/-- The bookings table after the success branch commits. -/
theorem bookings_bookCommit (st : DBState) (now : Int) (req : BookRequest) :
    (bookCommit st now req).bookings = st.bookings ++ [mkBooking st now req] := rfl

/-- Sequential execution of a batch of booking requests: the serialization
that the per-row `FOR UPDATE` lock imposes on a set of concurrent `book`
calls (each call is one atomic transaction holding the slot's row lock, so
any concurrent execution takes effect as one such ordering). Returns the
final committed state and the responses in order. -/
def runBooks (now : Int) : DBState → List BookRequest → DBState × List BookResult
  | st, [] => (st, [])
  | st, r :: rs =>
      let out := book st now r
      let rest := runBooks now out.2.1 rs
      (rest.1, out.1 :: rest.2)

/-- The response reports a successful booking. -/
def isSuccessR : BookResult → Bool
  | .success _ => true
  | _ => false

/-- The response reports `InsufficientCapacity` (HTTP 409). -/
def isInsufficientR : BookResult → Bool
  | .insufficient _ => true
  | _ => false

/-- Counting the outcomes of a sequential batch of unit-seat requests for
one slot with `C` seats available: `min C K` succeed, the rest get 409, and
the slot ends with `C - min C K` seats. -/
theorem runBooks_counting (now : Int) (sid : Nat) (hsid : sid ≠ 0)
    (reqs : List BookRequest)
    (hreqs : ∀ r ∈ reqs, r.slot_id = sid ∧ r.patient_name ≠ "" ∧ r.seats = 1) :
    ∀ (st : DBState) (sl : Slot) (C : Nat),
      findSlot sid st.slots = some sl → sl.available_seats = (C : Int) →
      ((runBooks now st reqs).2.filter isSuccessR).length = min C reqs.length ∧
      ((runBooks now st reqs).2.filter isInsufficientR).length
          = reqs.length - min C reqs.length ∧
      ∃ sl', findSlot sid (runBooks now st reqs).1.slots = some sl' ∧
        sl'.available_seats = ((C - min C reqs.length : Nat) : Int) := by
  induction reqs with
  | nil =>
      intro st sl C hfind hav
      refine ⟨by simp [runBooks], by simp [runBooks], sl, by simp [runBooks, hfind], ?_⟩
      simpa using hav
  | cons r rs ih =>
      intro st sl C hfind hav
      obtain ⟨hrs, hrn, hr1⟩ := hreqs r (List.mem_cons_self r rs)
      have hreqs' : ∀ x ∈ rs, x.slot_id = sid ∧ x.patient_name ≠ "" ∧ x.seats = 1 :=
        fun x hx => hreqs x (List.mem_cons_of_mem r hx)
      have hfind' : findSlot r.slot_id st.slots = some sl := by rw [hrs]; exact hfind
      cases C with
      | zero =>
          have hcap : ¬ sl.available_seats ≥ r.seats := by
            rw [hav, hr1]; norm_num
          have hb := book_insufficient_eq st now r sl (by rw [hrs]; exact hsid)
            hrn hfind' hcap
          have hrun : runBooks now st (r :: rs) =
              ((runBooks now st rs).1, .insufficient none :: (runBooks now st rs).2) := by
            show (let out := book st now r
                  let rest := runBooks now out.2.1 rs
                  (rest.1, out.1 :: rest.2)) = _
            rw [hb]
          obtain ⟨h1, h2, sl', hf', hav'⟩ := ih hreqs' st sl 0 hfind hav
          rw [hrun]
          refine ⟨?_, ?_, sl', hf', ?_⟩
          · rw [List.filter_cons_of_neg (by simp [isSuccessR]), h1, List.length_cons]
            omega
          · rw [List.filter_cons_of_pos rfl, List.length_cons, h2, List.length_cons]
            omega
          · rw [hav', List.length_cons]
            congr 1
            omega
      | succ c =>
          have hcap : sl.available_seats ≥ r.seats := by
            rw [hav, hr1]
            have : (0 : Int) ≤ (c : Int) := Int.ofNat_nonneg c
            push_cast
            omega
          have hb := book_success_eq st now r sl (by rw [hrs]; exact hsid)
            hrn hfind' hcap
          have hrun : runBooks now st (r :: rs) =
              ((runBooks now (bookCommit st now r) rs).1,
               .success st.nextBookingId :: (runBooks now (bookCommit st now r) rs).2) := by
            show (let out := book st now r
                  let rest := runBooks now out.2.1 rs
                  (rest.1, out.1 :: rest.2)) = _
            rw [hb]
          have hfind2 : findSlot sid (bookCommit st now r).slots =
              some { sl with available_seats := sl.available_seats - r.seats } := by
            rw [← hrs]
            exact findSlot_bookCommit st now r sl hfind'
          have hav2 : ({ sl with available_seats := sl.available_seats - r.seats }
              : Slot).available_seats = ((c : Nat) : Int) := by
            show sl.available_seats - r.seats = _
            rw [hav, hr1]
            push_cast
            ring
          obtain ⟨h1, h2, sl', hf', hav'⟩ :=
            ih hreqs' (bookCommit st now r) _ c hfind2 hav2
          rw [hrun]
          refine ⟨?_, ?_, sl', hf', ?_⟩
          · rw [List.filter_cons_of_pos rfl, List.length_cons, h1, List.length_cons]
            omega
          · rw [List.filter_cons_of_neg (by simp [isInsufficientR]), h2, List.length_cons]
            omega
          · rw [hav', List.length_cons]
            congr 1
            omega

/-- The slot row a cleanup run leaves behind: the old row with the freed
seats added back (no comparison against `max_patients` anywhere). -/
theorem findSlot_reclaim (st : DBState) (now : Int) (sid : Nat) (sl : Slot)
    (hfind : findSlot sid st.slots = some sl) :
    findSlot sid (reclaimExpired st now).1.slots =
      some { sl with available_seats :=
        sl.available_seats + reclaimSeats sl.id (expiredPending st now) } := by
  show findSlot sid ((expiredPending st now).foldl reclaimStep st).slots = _
  rw [foldl_reclaimStep_slots,
    findSlot_map (fun s => { s with available_seats :=
      s.available_seats + reclaimSeats s.id (expiredPending st now) })
      (fun s => rfl) sid st.slots,
    hfind]
  rfl

/-- With nonnegative seat counts, the seats one cleanup run returns to a
slot never exceed that slot's outstanding PENDING/CONFIRMED seats. -/
theorem reclaimSeats_le_outstanding (sid : Nat) (now : Int) (bs : List Booking)
    (hpos : ∀ b ∈ bs, b.slot_id = sid →
      (b.status = .PENDING ∨ b.status = .CONFIRMED) → 0 ≤ b.seats_booked) :
    reclaimSeats sid (bs.filter (fun b => decide (isExpiredPending now b))) ≤
      slotOutstanding sid bs := by
  induction bs with
  | nil => simp [reclaimSeats, slotOutstanding]
  | cons b bs ih =>
      have hpos' : ∀ x ∈ bs, x.slot_id = sid →
          (x.status = .PENDING ∨ x.status = .CONFIRMED) → 0 ≤ x.seats_booked :=
        fun x hx => hpos x (List.mem_cons_of_mem b hx)
      have ihh := ih hpos'
      by_cases h : isExpiredPending now b
      · have hd : decide (isExpiredPending now b) = true := by simpa using h
        rw [List.filter_cons, hd, if_pos rfl]
        have hpend : b.status = .PENDING := h.1
        simp only [reclaimSeats, slotOutstanding]
        by_cases hsid2 : b.slot_id = sid
        · rw [if_pos hsid2, if_pos ⟨hsid2, Or.inl hpend⟩]
          linarith
        · rw [if_neg hsid2, if_neg (fun hc => hsid2 hc.1)]
          linarith
      · have hd : decide (isExpiredPending now b) = false := by simpa using h
        rw [List.filter_cons, hd, if_neg Bool.false_ne_true]
        simp only [slotOutstanding]
        have hge : 0 ≤ (if b.slot_id = sid ∧
            (b.status = .PENDING ∨ b.status = .CONFIRMED) then b.seats_booked else 0) := by
          split
          · next hc => exact hpos b (List.mem_cons_self b bs) hc.1 hc.2
          · exact le_refl 0
        linarith

/-- After one cleanup run, no booking is both PENDING and expired: each
selected booking was set FAILED, so a second run selects nothing. -/
theorem expiredPending_after_reclaim (st : DBState) (now : Int) :
    expiredPending (reclaimExpired st now).1 now = [] := by
  apply List.filter_eq_nil_iff.mpr
  intro b hb
  have hb' : b ∈ ((expiredPending st now).foldl reclaimStep st).bookings := hb
  rw [foldl_reclaimStep_bookings] at hb'
  obtain ⟨b0, hb0, rfl⟩ := List.mem_map.mp hb'
  unfold markFailed
  by_cases hmem : b0.id ∈ (expiredPending st now).map (fun b => b.id)
  · rw [if_pos hmem]
    simp [isExpiredPending]
  · rw [if_neg hmem]
    intro hexp
    have hx : isExpiredPending now b0 := by simpa using hexp
    exact hmem (List.mem_map.mpr ⟨b0,
      List.mem_filter.mpr ⟨hb0, by simpa using hx⟩, rfl⟩)

/-- The cleanup loop raises whenever any listed booking's iteration
fails. -/
theorem reclaimLoop_none (fails : Nat → Bool) (l : List Booking) :
    ∀ st : DBState, (∃ b ∈ l, fails b.id = true) →
      reclaimLoop fails st l = none := by
  induction l with
  | nil =>
      intro st h
      obtain ⟨b, hb, _⟩ := h
      exact absurd hb (List.not_mem_nil b)
  | cons b l ih =>
      intro st h
      unfold reclaimLoop
      by_cases hf : fails b.id
      · rw [if_pos hf]
      · rw [if_neg hf]
        obtain ⟨b', hb', hfb'⟩ := h
        rcases List.mem_cons.mp hb' with heq | hmem
        · rw [heq] at hfb'; exact absurd hfb' hf
        · exact ih _ ⟨b', hmem, hfb'⟩

/-! ### Example database states used by the per-claim theorems -/

/-- One slot, capacity 1, one seat free, no bookings. -/
def exSlot1Free1 : DBState :=
  { slots := [{ id := 1, max_patients := 1, available_seats := 1 }],
    bookings := [], nextBookingId := 1 }

/-- One slot, capacity 2, one seat free, no bookings. -/
def exSlot2Free1 : DBState :=
  { slots := [{ id := 1, max_patients := 2, available_seats := 1 }],
    bookings := [], nextBookingId := 1 }

/-- One slot whose stored `available_seats` is negative. -/
def exSlotNeg : DBState :=
  { slots := [{ id := 1, max_patients := 1, available_seats := -1 }],
    bookings := [], nextBookingId := 1 }

/-- One slot, capacity 1, no seats free, no bookings. -/
def exSlot1Free0 : DBState :=
  { slots := [{ id := 1, max_patients := 1, available_seats := 0 }],
    bookings := [], nextBookingId := 1 }

/-- A slot already back at full capacity while an expired PENDING booking
of one seat still references it (the state a second release of that booking
would see). -/
def exDoubleRelease : DBState :=
  { slots := [{ id := 1, max_patients := 1, available_seats := 1 }],
    bookings :=
      [{ id := 1, slot_id := 1, patient_name := "P", patient_email := none,
         seats_booked := 1, status := .PENDING, expires_at := 0 }],
    nextBookingId := 2 }

/-- A slot with two expired PENDING bookings of one seat each. -/
def exTwoExpired : DBState :=
  { slots := [{ id := 1, max_patients := 2, available_seats := 0 }],
    bookings :=
      [{ id := 1, slot_id := 1, patient_name := "P", patient_email := none,
         seats_booked := 1, status := .PENDING, expires_at := 0 },
       { id := 2, slot_id := 1, patient_name := "Q", patient_email := none,
         seats_booked := 1, status := .PENDING, expires_at := 0 }],
    nextBookingId := 3 }

/-! ### Claim C3 -/

/-- Claim C3, counterexample: a `book` call whose slot exists with enough
seats (`available_seats = 1 ≥ seats = 1`) but whose `patient_name` is the
empty string is rejected as `InvalidRequest` with no state change and no
booking inserted — it does not return success as the claim demands of every
such call. -/
theorem c3_counterexample :
    findSlot 1 exSlot1Free1.slots =
      some { id := 1, max_patients := 1, available_seats := 1 } ∧
    ((1 : Int) ≥ (1 : Int)) ∧
    book exSlot1Free1 0
        { slot_id := 1, patient_name := "", patient_email := none, seats := 1 } =
      (.invalidRequest, exSlot1Free1, []) := by
  decide

/-- Request used by the C3 witness. -/
def c3req : BookRequest :=
  { slot_id := 1, patient_name := "Alice", patient_email := none, seats := 1 }

/-- Claim C3 (amended): for every `book` call that passes input validation
(truthy slot id and non-empty patient name) whose slot exists with
`available_seats ≥ seats`, the handler commits `bookCommit`: it returns
success carrying the new booking id, appends exactly one CONFIRMED booking
with `seats_booked = seats` and expiry 2 minutes (120000 ms) after the
call, and decrements the slot's `available_seats` by exactly `seats`. -/
theorem c3_book_success (st : DBState) (now : Int) (req : BookRequest)
    (sl : Slot)
    (hsid : req.slot_id ≠ 0) (hname : req.patient_name ≠ "")
    (hfind : findSlot req.slot_id st.slots = some sl)
    (hcap : sl.available_seats ≥ req.seats) :
    book st now req =
      (.success st.nextBookingId, bookCommit st now req,
       [.lockRead req.slot_id, .updateSlot req.slot_id, .insertBooking]) ∧
    (bookCommit st now req).bookings = st.bookings ++
      [{ id := st.nextBookingId, slot_id := req.slot_id,
         patient_name := req.patient_name, patient_email := req.patient_email,
         seats_booked := req.seats, status := .CONFIRMED,
         expires_at := now + 2 * 60 * 1000 }] ∧
    findSlot req.slot_id (bookCommit st now req).slots =
      some { sl with available_seats := sl.available_seats - req.seats } :=
  ⟨book_success_eq st now req sl hsid hname hfind hcap, rfl,
   findSlot_bookCommit st now req sl hfind⟩

/-- Witness for the amended C3 theorem at a concrete input. -/
theorem c3_book_success_witness :
    (c3req.slot_id ≠ 0 ∧ c3req.patient_name ≠ "" ∧
     findSlot c3req.slot_id exSlot2Free1.slots =
       some { id := 1, max_patients := 2, available_seats := 1 } ∧
     ((1 : Int) ≥ c3req.seats)) ∧
    (book exSlot2Free1 0 c3req =
      (.success 1, bookCommit exSlot2Free1 0 c3req,
       [.lockRead 1, .updateSlot 1, .insertBooking]) ∧
    (bookCommit exSlot2Free1 0 c3req).bookings = [] ++
      [{ id := 1, slot_id := 1, patient_name := "Alice", patient_email := none,
         seats_booked := 1, status := .CONFIRMED, expires_at := 0 + 2 * 60 * 1000 }] ∧
    findSlot 1 (bookCommit exSlot2Free1 0 c3req).slots =
      some { id := 1, max_patients := 2, available_seats := 1 - 1 }) :=
  ⟨by decide,
   c3_book_success exSlot2Free1 0 c3req
     { id := 1, max_patients := 2, available_seats := 1 }
     (by decide) (by decide) (by decide) (by decide)⟩

/-! ### Claim C4 -/

/-- Request with zero seats used for C4. -/
def c4req : BookRequest :=
  { slot_id := 1, patient_name := "Alice", patient_email := none, seats := 0 }

/-- Claim C4, counterexample: in `server.js` a `book` call with `seats = 0`
against an existing slot is not rejected — the handler locks and reads the
slot row, books 0 seats, inserts a CONFIRMED booking with
`seats_booked = 0`, and returns success, contradicting the claimed
`InvalidRequest` with no ledger access. -/
theorem c4_counterexample :
    book exSlot1Free1 0 c4req =
      (.success 1,
       { slots := [{ id := 1, max_patients := 1, available_seats := 1 }],
         bookings :=
           [{ id := 1, slot_id := 1, patient_name := "Alice",
              patient_email := none, seats_booked := 0, status := .CONFIRMED,
              expires_at := 120000 }],
         nextBookingId := 2 },
       [.lockRead 1, .updateSlot 1, .insertBooking]) := by
  decide

/-- Claim C4 (amended): the deployment variant rejects every `book` call
with `seats < 1` as `InvalidRequest` before the transaction begins — the
state is unchanged and no ledger access of any kind is performed. In
`server.js` the seats value is not validated (see the counterexample). -/
theorem c4_deploy_rejects (st : DBState) (now : Int) (req : BookRequest)
    (h : req.seats < 1) :
    bookDeploy st now req = (.invalidRequest, st, []) := by
  unfold bookDeploy
  by_cases h1 : req.slot_id = 0 ∨ req.patient_name = ""
  · rw [if_pos h1]
  · rw [if_neg h1, if_pos h]

/-- Witness for the amended C4 theorem at a concrete input. -/
theorem c4_deploy_rejects_witness :
    c4req.seats < 1 ∧
    bookDeploy exSlot1Free1 0 c4req = (.invalidRequest, exSlot1Free1, []) :=
  ⟨by decide, c4_deploy_rejects exSlot1Free1 0 c4req (by decide)⟩

/-! ### Claim C5 -/

/-- Request for two seats used for C5. -/
def c5req : BookRequest :=
  { slot_id := 1, patient_name := "Alice", patient_email := none, seats := 2 }

/-- Claim C5, counterexample: in `server.js`, booking 2 seats on a slot
with 1 available aborts with no mutation, but the 409 response body is a
fixed message carrying no availability value — in particular not the
actual `available_seats = 1` the claim requires. -/
theorem c5_counterexample :
    book exSlot2Free1 0 c5req = (.insufficient none, exSlot2Free1, [.lockRead 1]) ∧
    (.insufficient none : BookResult) ≠ .insufficient (some 1) := by
  decide

/-- Claim C5 (amended): on an existing slot with `available_seats < seats`
(validated request, `seats ≥ 1`), both handlers abort with no mutation and
answer 409; the deployment variant's response carries the actual
`available_seats` value read under the lock, while the `server.js`
response carries no availability value. -/
theorem c5_insufficient (st : DBState) (now : Int) (req : BookRequest)
    (sl : Slot)
    (hsid : req.slot_id ≠ 0) (hname : req.patient_name ≠ "")
    (hseats : 1 ≤ req.seats)
    (hfind : findSlot req.slot_id st.slots = some sl)
    (hcap : sl.available_seats < req.seats) :
    book st now req = (.insufficient none, st, [.lockRead req.slot_id]) ∧
    bookDeploy st now req =
      (.insufficient (some sl.available_seats), st, [.lockRead req.slot_id]) := by
  constructor
  · exact book_insufficient_eq st now req sl hsid hname hfind (not_le.mpr hcap)
  · unfold bookDeploy
    have hval : ¬(req.slot_id = 0 ∨ req.patient_name = "") := by
      push_neg; exact ⟨hsid, hname⟩
    rw [if_neg hval, if_neg (not_lt.mpr hseats), hfind]
    show (if sl.available_seats ≥ req.seats then _ else _) = _
    rw [if_neg (not_le.mpr hcap)]

/-- Witness for the amended C5 theorem at a concrete input. -/
theorem c5_insufficient_witness :
    (c5req.slot_id ≠ 0 ∧ c5req.patient_name ≠ "" ∧ 1 ≤ c5req.seats ∧
     findSlot c5req.slot_id exSlot2Free1.slots =
       some { id := 1, max_patients := 2, available_seats := 1 } ∧
     ((1 : Int) < c5req.seats)) ∧
    (book exSlot2Free1 0 c5req = (.insufficient none, exSlot2Free1, [.lockRead 1]) ∧
     bookDeploy exSlot2Free1 0 c5req =
       (.insufficient (some 1), exSlot2Free1, [.lockRead 1])) :=
  ⟨by decide,
   c5_insufficient exSlot2Free1 0 c5req
     { id := 1, max_patients := 2, available_seats := 1 }
     (by decide) (by decide) (by decide) (by decide) (by decide)⟩

/-! ### Claim C6 -/

/-- Unit-seat request used for C6. -/
def c6req : BookRequest :=
  { slot_id := 1, patient_name := "Alice", patient_email := none, seats := 1 }

/-- Claim C6, counterexample: with a stored `available_seats = -1 < 0` the
claim demands `NotFound`, but the handler performs no negativity check —
the negative value falls through the `availableSeats >= seats` comparison
and the call fails with `InsufficientCapacity` (409), not `NotFound`. -/
theorem c6_counterexample :
    findSlot 1 exSlotNeg.slots =
      some { id := 1, max_patients := 1, available_seats := -1 } ∧
    ((-1 : Int) < 0) ∧
    book exSlotNeg 0 c6req = (.insufficient none, exSlotNeg, [.lockRead 1]) ∧
    (book exSlotNeg 0 c6req).1 ≠ .notFound := by
  decide

/-- Claim C6 (amended): after acquiring the lock, if the slot row is absent
the handler aborts with no mutation and fails with `NotFound`; the read
`available_seats` value is never checked for negativity (a negative value
falls through to the capacity comparison — see the counterexample). -/
theorem c6_notfound (st : DBState) (now : Int) (req : BookRequest)
    (hsid : req.slot_id ≠ 0) (hname : req.patient_name ≠ "")
    (habs : findSlot req.slot_id st.slots = none) :
    book st now req = (.notFound, st, [.lockRead req.slot_id]) :=
  book_notFound_eq st now req hsid hname habs

/-- Database with no slots at all, used by the C6 witness. -/
def exEmpty : DBState := { slots := [], bookings := [], nextBookingId := 1 }

/-- Witness for the amended C6 theorem at a concrete input. -/
theorem c6_notfound_witness :
    (c6req.slot_id ≠ 0 ∧ c6req.patient_name ≠ "" ∧
     findSlot c6req.slot_id exEmpty.slots = none) ∧
    book exEmpty 0 c6req = (.notFound, exEmpty, [.lockRead 1]) :=
  ⟨by decide, c6_notfound exEmpty 0 c6req (by decide) (by decide) (by decide)⟩

/-! ### Claim C7 -/

/-- Claim C7, counterexample: the compensating increment has no capacity
cap. In a state where the released seat is already back
(`available_seats = max_patients = 1`) but the expired PENDING booking
still exists — exactly the situation of a second release for the same
booking — the cleanup run pushes `available_seats` to `2`, above the total
capacity `1`. -/
theorem c7_counterexample :
    (reclaimExpired exDoubleRelease 10).1.slots =
      [{ id := 1, max_patients := 1, available_seats := 2 }] ∧
    ((1 : Int) < 2) := by
  decide

/-- Claim C7 (amended): the increment carries no guard against exceeding
`max_patients`; it cannot push `available_seats` above total capacity only
when the run starts from a consistent state — the capacity equation holds
for the slot and PENDING/CONFIRMED seat counts are nonnegative. A repeated
release for the same booking starts from an inconsistent state and does
exceed capacity (see the counterexample). -/
theorem c7_reclaim_bounded (st : DBState) (now : Int) (sid : Nat) (sl : Slot)
    (hfind : findSlot sid st.slots = some sl)
    (hinv : sl.available_seats = sl.max_patients - slotOutstanding sid st.bookings)
    (hpos : ∀ b ∈ st.bookings, b.slot_id = sid →
      (b.status = .PENDING ∨ b.status = .CONFIRMED) → 0 ≤ b.seats_booked) :
    ∃ sl', findSlot sid (reclaimExpired st now).1.slots = some sl' ∧
      sl'.max_patients = sl.max_patients ∧
      sl'.available_seats ≤ sl.max_patients := by
  have hsl : sl.id = sid := findSlot_id sid st.slots sl hfind
  refine ⟨_, findSlot_reclaim st now sid sl hfind, rfl, ?_⟩
  show sl.available_seats + reclaimSeats sl.id (expiredPending st now) ≤ sl.max_patients
  have hle := reclaimSeats_le_outstanding sid now st.bookings hpos
  rw [hsl, hinv]
  unfold expiredPending
  linarith

/-- Witness for the amended C7 theorem at a concrete input. -/
theorem c7_reclaim_bounded_witness :
    (findSlot 1 exTwoExpired.slots =
       some { id := 1, max_patients := 2, available_seats := 0 } ∧
     ((0 : Int) = 2 - slotOutstanding 1 exTwoExpired.bookings)) ∧
    (∃ sl', findSlot 1 (reclaimExpired exTwoExpired 10).1.slots = some sl' ∧
      sl'.max_patients = 2 ∧ sl'.available_seats ≤ 2) :=
  ⟨by decide,
   c7_reclaim_bounded exTwoExpired 10 1
     { id := 1, max_patients := 2, available_seats := 0 }
     (by decide) (by decide) (by decide)⟩

/-! ### Claim C8 -/

/-- Claim C8: `reclaimExpired` is idempotent. The first run rewrites the
bookings table pointwise — every expired PENDING booking becomes FAILED,
nothing else changes — and adds back to each slot exactly the seats of the
expired PENDING bookings referencing it; a second run at the same clock
selects nothing, reports 0 reclaimed, and leaves the state unchanged
(the status check gates the increment). The `Nodup` hypothesis is the
primary-key constraint of `bookings.id`. -/
theorem c8_reclaim_idempotent (st : DBState) (now : Int)
    (hnd : (st.bookings.map (fun b => b.id)).Nodup) :
    reclaimExpired (reclaimExpired st now).1 now = ((reclaimExpired st now).1, 0) ∧
    (reclaimExpired st now).1.bookings = st.bookings.map (fun b =>
      if isExpiredPending now b then { b with status := .FAILED } else b) ∧
    (reclaimExpired st now).1.slots = st.slots.map (fun s =>
      { s with available_seats :=
        s.available_seats + reclaimSeats s.id (expiredPending st now) }) := by
  refine ⟨?_, ?_, ?_⟩
  · have hemp : expiredPending (reclaimExpired st now).1 now = [] :=
      expiredPending_after_reclaim st now
    show ((expiredPending (reclaimExpired st now).1 now).foldl reclaimStep
        (reclaimExpired st now).1,
      (expiredPending (reclaimExpired st now).1 now).length) =
        ((reclaimExpired st now).1, 0)
    rw [hemp]
    rfl
  · show ((expiredPending st now).foldl reclaimStep st).bookings = _
    rw [foldl_reclaimStep_bookings]
    exact map_markFailed_expired now st.bookings hnd
  · show ((expiredPending st now).foldl reclaimStep st).slots = _
    rw [foldl_reclaimStep_slots]

/-- Witness for the C8 theorem at a concrete input. -/
theorem c8_reclaim_idempotent_witness :
    (exTwoExpired.bookings.map (fun b => b.id)).Nodup ∧
    reclaimExpired (reclaimExpired exTwoExpired 10).1 10 =
      ((reclaimExpired exTwoExpired 10).1, 0) :=
  ⟨by decide, (c8_reclaim_idempotent exTwoExpired 10 (by decide)).1⟩

/-! ### Claim C9 -/

/-- Claim C9, counterexample: the cleanup run is one transaction, not one
atomic unit per booking. With two expired PENDING bookings and a storage
failure on the second one's iteration, the whole run rolls back: the
committed state is the pre-call state, so booking 1's already-performed
reclamation (which on its own would have marked it FAILED) is undone. -/
theorem c9_counterexample :
    reclaimExpiredF exTwoExpired 10 (fun i => i == 2) = (exTwoExpired, none) ∧
    ((reclaimStep exTwoExpired
        { id := 1, slot_id := 1, patient_name := "P", patient_email := none,
          seats_booked := 1, status := .PENDING, expires_at := 0 }).bookings.filter
      (fun b => b.status == .FAILED)).length = 1 ∧
    (exTwoExpired.bookings.filter (fun b => b.status == .FAILED)).length = 0 := by
  decide

/-- Claim C9 (amended): all reclamations of one cleanup run share a single
transaction; a failure while reclaiming any selected booking rolls the
entire run back, undoing every other booking's reclamation — the committed
state is exactly the pre-call state and no count is reported. -/
theorem c9_rollback (st : DBState) (now : Int) (fails : Nat → Bool)
    (h : ∃ b ∈ expiredPending st now, fails b.id = true) :
    reclaimExpiredF st now fails = (st, none) := by
  have hnone : reclaimLoop fails st (expiredPending st now) = none :=
    reclaimLoop_none fails (expiredPending st now) st h
  show (match reclaimLoop fails st (expiredPending st now) with
        | some st2 => (st2, some (expiredPending st now).length)
        | none => (st, none)) = (st, none)
  rw [hnone]

/-- Witness for the amended C9 theorem at a concrete input. -/
theorem c9_rollback_witness :
    (∃ b ∈ expiredPending exTwoExpired 10, (fun i => i == 2) b.id = true) ∧
    reclaimExpiredF exTwoExpired 10 (fun i => i == 2) = (exTwoExpired, none) :=
  ⟨by decide, c9_rollback exTwoExpired 10 (fun i => i == 2) (by decide)⟩

/-! ### Claim C10 -/

/-- Request with negative seats used for C10. -/
def c10req : BookRequest :=
  { slot_id := 1, patient_name := "Bob", patient_email := none, seats := -2 }

/-- Claim C10: with `seats = -2` against an existing slot with
`available_seats = 0`, the availability check `0 ≥ -2` passes, `book`
returns success, the slot's `available_seats` rises by 2 to `2` — above
the total capacity `max_patients = 1` — and a CONFIRMED booking with
`seats_booked = -2` is created. -/
theorem c10_negative_seats :
    ((0 : Int) ≥ c10req.seats) ∧
    book exSlot1Free0 0 c10req =
      (.success 1,
       { slots := [{ id := 1, max_patients := 1, available_seats := 2 }],
         bookings :=
           [{ id := 1, slot_id := 1, patient_name := "Bob",
              patient_email := none, seats_booked := -2, status := .CONFIRMED,
              expires_at := 120000 }],
         nextBookingId := 2 },
       [.lockRead 1, .updateSlot 1, .insertBooking]) ∧
    ((1 : Int) < 2) := by
  decide

/-! ### Claim C1 -/

/-- Claim C1: for every sequence of `book` and `reclaimExpired` calls
starting from a well-formed state in which slot `sid` is at full capacity
(`available_seats = max_patients`) and no booking references it, at every
point the slot satisfies `available_seats = total_capacity − Σ seats_booked`
over the PENDING/CONFIRMED bookings referencing it (quantifying over all
`ops` covers every intermediate point). The `WF` hypothesis is the
primary-key constraint of `bookings.id`. -/
theorem c1_capacity_invariant (st0 : DBState) (sid : Nat) (sl0 : Slot)
    (ops : List Op)
    (hWF : WF st0)
    (hfind : findSlot sid st0.slots = some sl0)
    (hfull : sl0.available_seats = sl0.max_patients)
    (hnob : ∀ b ∈ st0.bookings, b.slot_id ≠ sid) :
    ∃ sl, findSlot sid (run st0 ops).slots = some sl ∧
      sl.max_patients = sl0.max_patients ∧
      sl.available_seats =
        sl0.max_patients - slotOutstanding sid (run st0 ops).bookings := by
  have h0 : CapInv sid sl0.max_patients st0 := by
    refine ⟨hWF, sl0, hfind, rfl, ?_⟩
    rw [slotOutstanding_eq_zero sid st0.bookings hnob, hfull]
    ring
  exact (capInv_run sid sl0.max_patients st0 ops h0).2

/-- One slot at full capacity 2, used by the C1 witness. -/
def exSlot2Full : DBState :=
  { slots := [{ id := 1, max_patients := 2, available_seats := 2 }],
    bookings := [], nextBookingId := 1 }

/-- A book call followed by a cleanup run, used by the C1 witness. -/
def c1ops : List Op :=
  [Op.doBook { slot_id := 1, patient_name := "Alice", patient_email := none,
               seats := 1 } 0,
   Op.doReclaim 500000]

/-- Witness for the C1 theorem at a concrete input. -/
theorem c1_capacity_invariant_witness :
    (WF exSlot2Full ∧
     findSlot 1 exSlot2Full.slots =
       some { id := 1, max_patients := 2, available_seats := 2 } ∧
     ((2 : Int) = 2) ∧
     (∀ b ∈ exSlot2Full.bookings, b.slot_id ≠ 1)) ∧
    (∃ sl, findSlot 1 (run exSlot2Full c1ops).slots = some sl ∧
      sl.max_patients = 2 ∧
      sl.available_seats = 2 - slotOutstanding 1 (run exSlot2Full c1ops).bookings) :=
  ⟨by decide,
   c1_capacity_invariant exSlot2Full 1
     { id := 1, max_patients := 2, available_seats := 2 } c1ops
     (by decide) (by decide) (by decide) (by decide)⟩

/-! ### Claim C2 -/

/-- Claim C2: a set of concurrent `book` calls against one slot takes
effect as some sequential ordering of the calls — each call is one atomic
transaction executed under the slot's exclusive `FOR UPDATE` row lock, so
`runBooks` over an arbitrary request list ranges over exactly the possible
orderings. For every ordering of K unit-seat requests against a slot with
C < K seats available, exactly C succeed, K − C fail with
`InsufficientCapacity` (409), and the slot ends with `available_seats = 0`. -/
theorem c2_no_overbooking (now : Int) (st : DBState) (sid : Nat) (sl : Slot)
    (C : Nat) (reqs : List BookRequest)
    (hsid : sid ≠ 0)
    (hreqs : ∀ r ∈ reqs, r.slot_id = sid ∧ r.patient_name ≠ "" ∧ r.seats = 1)
    (hfind : findSlot sid st.slots = some sl)
    (hav : sl.available_seats = (C : Int))
    (hK : C < reqs.length) :
    ((runBooks now st reqs).2.filter isSuccessR).length = C ∧
    ((runBooks now st reqs).2.filter isInsufficientR).length = reqs.length - C ∧
    ∃ sl', findSlot sid (runBooks now st reqs).1.slots = some sl' ∧
      sl'.available_seats = 0 := by
  obtain ⟨h1, h2, sl', hf', hav'⟩ :=
    runBooks_counting now sid hsid reqs hreqs st sl C hfind hav
  have hmin : min C reqs.length = C := min_eq_left (Nat.le_of_lt hK)
  refine ⟨by rw [h1, hmin], by rw [h2, hmin], sl', hf', ?_⟩
  rw [hav', hmin]
  simp

/-- Two unit-seat requests for slot 1, used by the C2 witness. -/
def c2reqs : List BookRequest :=
  [{ slot_id := 1, patient_name := "A", patient_email := none, seats := 1 },
   { slot_id := 1, patient_name := "B", patient_email := none, seats := 1 }]

/-- Witness for the C2 theorem at a concrete input: two unit requests
against one remaining seat — one succeeds, one gets 409, the slot empties. -/
theorem c2_no_overbooking_witness :
    ((1 : Nat) ≠ 0 ∧
     (∀ r ∈ c2reqs, r.slot_id = 1 ∧ r.patient_name ≠ "" ∧ r.seats = 1) ∧
     findSlot 1 exSlot2Free1.slots =
       some { id := 1, max_patients := 2, available_seats := 1 } ∧
     (((1 : Int)) = ((1 : Nat) : Int)) ∧
     1 < c2reqs.length) ∧
    (((runBooks 0 exSlot2Free1 c2reqs).2.filter isSuccessR).length = 1 ∧
     ((runBooks 0 exSlot2Free1 c2reqs).2.filter isInsufficientR).length =
       c2reqs.length - 1 ∧
     ∃ sl', findSlot 1 (runBooks 0 exSlot2Free1 c2reqs).1.slots = some sl' ∧
       sl'.available_seats = 0) :=
  ⟨by decide,
   c2_no_overbooking 0 exSlot2Free1 1
     { id := 1, max_patients := 2, available_seats := 1 } 1 c2reqs
     (by decide) (by decide) (by decide) (by decide) (by decide)⟩

end DoctorAppointment
